import Mathlib

/-!
Shallow embedding of `transactron/utils/amaranth_ext/memory.py` (classes
`MultiReadMemory`, `MultiportXORMemory`, `ReadPort`, `WritePort`) and of the
Amaranth library facilities they rely on (`amaranth.utils.bits_for`,
`amaranth.lib.memory.Memory` read/write port cycle semantics).

Machine values carried by data signals are modelled as `Nat` under bitwise
XOR (`^^^`); XOR never widens a value, so no truncation is needed.  Python's
`int`-typed `depth` is modelled as `Int`.  An undriven Amaranth signal that is
only read combinationally keeps its reset value, which defaults to 0; this is
used wherever the source reads a signal that no statement drives.
-/

/-- Amaranth `ceil_log2(n)` (amaranth >= 0.5, the version this repository
imports, as witnessed by `amaranth.lib.memory` and `AlreadyElaborated`):
0 for `n = 0`, otherwise the bit length of `n - 1`, i.e. `ceil(log2 n)`. -/
def ceil_log2 (n : Nat) : Nat := if n = 0 then 0 else Nat.size (n - 1)

/-- Amaranth `bits_for(n)` (amaranth >= 0.5): for `n > 0` the bits needed
for `n` as an unsigned value, `ceil_log2(n + 1)`; for every `n <= 0` —
including `n = 0` — the sign-bit branch applies and the result is
`ceil_log2(-n + 1) + 1`, so `bits_for(0) = 1`. -/
def bits_for (n : Int) : Nat :=
  if 0 < n then ceil_log2 (n + 1).toNat
  else ceil_log2 (-n + 1).toNat + 1

/-- Handle created by `ReadPort.__init__` (memory.py lines 146-160): records
the geometry copied from the owning memory and the computed address width
`bits_for(depth - 1)`.  `transparentFor` abstracts the `transparent_for`
argument as "is this port transparent w.r.t. the single write port of the
primitive bank it ends up wired to".  The `en`/`addr`/`data` signals
themselves are represented in the circuit semantics, not in the handle. -/
structure ReadPort where
  depth : Int
  width : Nat
  addr_width : Nat
  transparentFor : Bool
  deriving DecidableEq

/-- Handle created by `WritePort.__init__` (memory.py lines 162-175). -/
structure WritePort where
  depth : Int
  width : Nat
  addr_width : Nat
  deriving DecidableEq

/-- Registry state shared by `MultiReadMemory.__init__` and
`MultiportXORMemory.__init__` (the source duplicates the same fields in both
classes): descriptor fields plus the mutable port lists and the `_frozen`
flag. -/
structure MemState where
  shape : Nat
  depth : Int
  init : List Nat
  read_ports : List ReadPort
  write_ports : List WritePort
  frozen : Bool
  deriving DecidableEq

/-- The exceptions raised by the port-declaration methods:
`amaranth.hdl.AlreadyElaborated` (the lifecycle error) and the repository's
`MultipleWritePorts` (the capacity error). -/
inductive MemError where
  | AlreadyElaborated
  | MultipleWritePorts
  deriving DecidableEq

/-- `MultiReadMemory.__init__` (lines 33-63): stores the descriptor verbatim
and starts with empty port lists, not frozen.  The source performs no
validation of `depth`. -/
def MultiReadMemory.init (shape : Nat) (depth : Int) (ini : List Nat) : MemState :=
  { shape := shape, depth := depth, init := ini,
    read_ports := [], write_ports := [], frozen := false }

/-- `MultiportXORMemory.__init__` (lines 193-223): byte-for-byte the same
bookkeeping as `MultiReadMemory.__init__`. -/
def MultiportXORMemory.init (shape : Nat) (depth : Int) (ini : List Nat) : MemState :=
  { shape := shape, depth := depth, init := ini,
    read_ports := [], write_ports := [], frozen := false }

/-- The `ReadPort` handle built by `ReadPort.__init__` for memory `s`:
`addr_width = bits_for(depth - 1)` (line 155). -/
def mkReadPort (s : MemState) (t : Bool) : ReadPort :=
  { depth := s.depth, width := s.shape,
    addr_width := bits_for (s.depth - 1), transparentFor := t }

/-- The `WritePort` handle built by `WritePort.__init__` for memory `s`:
`addr_width = bits_for(depth - 1)` (line 170). -/
def mkWritePort (s : MemState) : WritePort :=
  { depth := s.depth, width := s.shape, addr_width := bits_for (s.depth - 1) }

/-- `MultiReadMemory.read_port` (lines 97-106): raises `AlreadyElaborated`
when frozen, otherwise constructs a `ReadPort` whose `__init__` appends it to
`_read_ports`. -/
def MultiReadMemory.read_port (s : MemState) (t : Bool) :
    Except MemError (ReadPort × MemState) :=
  if s.frozen then .error .AlreadyElaborated
  else
    let p := mkReadPort s t
    .ok (p, { s with read_ports := s.read_ports ++ [p] })

/-- `MultiReadMemory.write_port` (lines 108-119): raises `AlreadyElaborated`
when frozen, then `MultipleWritePorts` when a write port already exists,
otherwise constructs a `WritePort` appended to `_write_ports`. -/
def MultiReadMemory.write_port (s : MemState) :
    Except MemError (WritePort × MemState) :=
  if s.frozen then .error .AlreadyElaborated
  else if s.write_ports ≠ [] then .error .MultipleWritePorts
  else
    let p := mkWritePort s
    .ok (p, { s with write_ports := s.write_ports ++ [p] })

/-- `MultiportXORMemory.read_port` (lines 257-266): same as the single-writer
variant. -/
def MultiportXORMemory.read_port (s : MemState) (t : Bool) :
    Except MemError (ReadPort × MemState) :=
  if s.frozen then .error .AlreadyElaborated
  else
    let p := mkReadPort s t
    .ok (p, { s with read_ports := s.read_ports ++ [p] })

/-- `MultiportXORMemory.write_port` (lines 268-277): only the frozen check,
no capacity limit. -/
def MultiportXORMemory.write_port (s : MemState) :
    Except MemError (WritePort × MemState) :=
  if s.frozen then .error .AlreadyElaborated
  else
    let p := mkWritePort s
    .ok (p, { s with write_ports := s.write_ports ++ [p] })

/-- A primitive bank created during `MultiReadMemory.elaborate` (lines
126-141).  `frozenAtCreation` records the registry's `_frozen` flag at the
moment the `amaranth.lib.memory.Memory` instance is constructed;
`writeSrc`/`readSrc` record which logical write/read port's `addr`/`data`/`en`
signals are combinationally wired to the bank's physical write/read port;
`transparent` is the `transparent_for` setting passed through from the
logical read port (line 134). -/
structure BankRec where
  frozenAtCreation : Bool
  writeSrc : Nat
  readSrc : Nat
  transparent : Bool
  deriving DecidableEq

instance : Inhabited BankRec := ⟨⟨false, 0, 0, false⟩⟩

/-- Result of `MultiReadMemory.elaborate`: the final registry state and the
list of primitive banks with their wiring. -/
structure MRMBuild where
  finalState : MemState
  banks : List BankRec
  deriving DecidableEq

/-- `MultiReadMemory.elaborate` (lines 121-143): sets `_frozen = True` first
(line 124); then, only when a write port exists (line 126), creates one
primitive `memory.Memory` per logical read port, wiring every bank's physical
write port to `write_ports[0]` (lines 127, 139-141) and bank `k`'s physical
read port to logical read port `k` (lines 134, 136-138).  The `port is None`
defensive check (line 129) cannot fire in this embedding, where the port list
holds structures. -/
def MultiReadMemory.elaborate (s : MemState) : MRMBuild :=
  let s1 := { s with frozen := true }
  { finalState := s1
    banks :=
      if s1.write_ports = [] then []
      else (List.range s1.read_ports.length).map fun k =>
        { frozenAtCreation := s1.frozen, writeSrc := 0, readSrc := k
          transparent := (s1.read_ports.getD k (mkReadPort s false)).transparentFor } }

/-- Drive of one logical write port during one cycle. -/
structure WSig where
  en : Bool
  addr : Nat
  data : Nat
  deriving DecidableEq

/-- Drive of one logical read port during one cycle. -/
structure RSig where
  en : Bool
  addr : Nat
  deriving DecidableEq

/-- Per-cycle inputs of the elaborated circuit: the values the client puts on
the declared logical write and read ports. -/
structure CircInputs where
  writes : List WSig
  reads : List RSig

/-- Clocked state of the elaborated circuit: the storage array of each
primitive bank (content by address) and each bank's synchronous read output
register. -/
structure CircState where
  mems : List (Nat → Nat)
  outs : List Nat

def defaultW : WSig := ⟨false, 0, 0⟩

def defaultR : RSig := ⟨false, 0⟩

def zeroMem : Nat → Nat := fun _ => 0

/-- One clock edge of a primitive bank's storage array
(`amaranth.lib.memory.Memory` write port): an enabled write commits `data` at
`addr`.  The bank's write port is driven by logical write port
`b.writeSrc`. -/
def stepMem (b : BankRec) (inp : CircInputs) (mem : Nat → Nat) : Nat → Nat :=
  let w := inp.writes.getD b.writeSrc defaultW
  if w.en then fun a => if a = w.addr then w.data else mem a else mem

/-- One clock edge of a primitive bank's synchronous read register
(`amaranth.lib.memory.Memory` read port): when enabled it captures the
pre-write content at `addr`, except that a port transparent for the bank's
writer bypasses a same-cycle write to the same address.  The bank's read port
is driven by logical read port `b.readSrc`. -/
def stepOut (b : BankRec) (inp : CircInputs) (mem : Nat → Nat) (out : Nat) : Nat :=
  let w := inp.writes.getD b.writeSrc defaultW
  let r := inp.reads.getD b.readSrc defaultR
  if r.en then
    if b.transparent ∧ w.en ∧ w.addr = r.addr then w.data else mem r.addr
  else out

/-- One clock cycle of the whole elaborated bank list. -/
def circStep (banks : List BankRec) (inp : CircInputs) (st : CircState) : CircState :=
  { mems := (List.range banks.length).map fun j =>
      stepMem (banks.getD j default) inp (st.mems.getD j zeroMem)
    outs := (List.range banks.length).map fun j =>
      stepOut (banks.getD j default) inp (st.mems.getD j zeroMem) (st.outs.getD j 0) }

/-- Index of the primitive bank whose physical read data drives logical read
port `k` (the bank with `readSrc = k`); `none` when no bank drives it. -/
def findBankFor (banks : List BankRec) (k : Nat) : Option Nat :=
  match banks with
  | [] => none
  | b :: rest => if b.readSrc = k then some 0 else (findBankFor rest k).map (· + 1)

/-- Data observed on logical read port `k`: the read register of the bank
wired to it (line 137 `port.data.eq(physical_read_port.data)`); an undriven
port reads as the signal's reset value 0. -/
def portData (banks : List BankRec) (st : CircState) (k : Nat) : Nat :=
  match findBankFor banks k with
  | some j => st.outs.getD j 0
  | none => 0

/-- Apply `read_port()` with the default `transparent_for=()` and keep the
updated registry, as the replicator construction inside
`MultiportXORMemory.elaborate` does (line 325); the error branch is
unreachable there because the fresh registry is never frozen. -/
def applyReadPort (s : MemState) : MemState :=
  match MultiReadMemory.read_port s false with
  | .ok (_, s1) => s1
  | .error _ => s

/-- Apply `write_port()` and keep the updated registry (line 323). -/
def applyWritePort (s : MemState) : MemState :=
  match MultiReadMemory.write_port s with
  | .ok (_, s1) => s1
  | .error _ => s

/-- Declare `n` read ports in sequence. -/
def iterReadPorts : MemState → Nat → MemState
  | s, 0 => s
  | s, n + 1 => iterReadPorts (applyReadPort s) n

/-- The `read_block` replicator built for one writer inside
`MultiportXORMemory.elaborate` (lines 320-326): a fresh `MultiReadMemory`
with the same descriptor, on which `write_port()` is called once and
`read_port()` once per logical reader of the XOR memory. -/
def mkReadBlock (shape : Nat) (depth : Int) (ini : List Nat) (r : Nat) : MemState :=
  iterReadPorts (applyWritePort (MultiReadMemory.init shape depth ini)) r

/-- Index bookkeeping of the relay-bank loop (lines 308-310): the target slot
is `i + 1` once the loop has passed the writer's own index. -/
def idxShift (index i : Nat) : Nat := if index ≤ i then i + 1 else i

/-- A relay bank created by the inner loop of `MultiportXORMemory.elaborate`
(lines 301-318): `owner` is the writer whose write port drives its physical
write side (address/enable, lines 313, 315), `slot` is the inner loop index,
and `readAddrSrc = idxShift owner slot` is the writer whose address drives
its physical read side (line 318). -/
structure RelayBank where
  frozenAtCreation : Bool
  owner : Nat
  slot : Nat
  readAddrSrc : Nat
  deriving DecidableEq

/-- Structural result of `MultiportXORMemory.elaborate`: the final registry
state, all relay banks, and per writer the outer `_frozen` flag observed when
its replicator submodule is instantiated together with the replicator's own
elaboration result. -/
structure XorBuild where
  finalState : MemState
  relayBanks : List RelayBank
  replicators : List (Bool × MRMBuild)
  deriving DecidableEq

/-- `MultiportXORMemory.elaborate`, structural part (lines 280-329): sets
`_frozen = True` first (line 283); then, per writer, creates `W - 1` relay
banks and one replicator `MultiReadMemory` carrying one write port and one
read port per logical reader.  The replicator submodule is elaborated by the
enclosing build, which yields its own primitive banks. -/
def MultiportXORMemory.elaborate (s : MemState) : XorBuild :=
  let s1 := { s with frozen := true }
  let w := s1.write_ports.length
  let r := s1.read_ports.length
  { finalState := s1
    relayBanks := (List.range w).flatMap fun index =>
      (List.range (w - 1)).map fun i =>
        { frozenAtCreation := s1.frozen, owner := index, slot := i
          readAddrSrc := idxShift index i }
    replicators := (List.range w).map fun _ =>
      (s1.frozen, MultiReadMemory.elaborate (mkReadBlock s1.shape s1.depth s1.init r)) }

/-- Total number of primitive `amaranth.lib.memory.Memory` instances created
by a whole `MultiportXORMemory` build: the relay banks plus every
replicator's banks. -/
def XorBuild.bankCount (e : XorBuild) : Nat :=
  e.relayBanks.length + (e.replicators.map fun p => p.2.banks.length).sum

/-- Environment for the combinational XOR network of
`MultiportXORMemory.elaborate`: the value of each input signal the network
reads.  `wdata i` is writer `i`'s raw input `write_port.data`; `fetch i j` is
the synchronous read output of relay bank `(i, j)` (`physical_read_port.data`
of the bank with owner `i`, slot `j`); `replOut i k` is reader `k`'s data
output of writer `i`'s replicator. -/
structure XorEnv where
  wdata : Nat → Nat
  fetch : Nat → Nat → Nat
  replOut : Nat → Nat → Nat

/-- Replay of one writer's inner relay-bank loop (lines 301-318), operating
on the Python list `write_xors` evaluated in `env`.  At each slot the fetched
relay value is XORed into the shifted entry (line 311), and the value wired
to that relay bank's physical write data — `write_xors[index]` as it stands
at line 314 — is recorded.  The never-driven seed signals of `write_xors`
(line 287) evaluate to 0. -/
def innerLoopC (env : XorEnv) (w index : Nat) (wx : List Nat) : List Nat × List Nat :=
  (List.range (w - 1)).foldl
    (fun acc i =>
      let k := idxShift index i
      let wx1 := acc.1.set k (env.fetch index i ^^^ acc.1.getD k 0)
      (wx1, acc.2 ++ [wx1.getD index 0]))
    (wx, [])

/-- Replay of one iteration of the outer writer loop (lines 294-329): seed
`write_xors[index]` with the writer's raw data (line 299), run the inner
relay loop, then record the value wired to the replicator's write data —
`write_xors[index]` as it stands at line 328. -/
def outerStep (env : XorEnv) (w : Nat) (acc : List Nat × List (List Nat × Nat))
    (index : Nat) : List Nat × List (List Nat × Nat) :=
  let wx1 := acc.1.set index (env.wdata index ^^^ acc.1.getD index 0)
  let res := innerLoopC env w index wx1
  (res.1, acc.2 ++ [(res.2, res.1.getD index 0)])

/-- For each writer, the data values committed by the build: first component
the list of values wired to its `W - 1` relay banks' write data, second the
value wired to its replicator's write data. -/
def writeCommits (env : XorEnv) (w : Nat) : List (List Nat × Nat) :=
  ((List.range w).foldl (outerStep env w) (List.replicate w 0, [])).2

/-- Modelled from the spec (§4.3 steps 1-2, claim C1): each writer `i`'s
combined committed value is its raw input XORed with the value fetched from
each of the other writers' relay banks that is read at writer `i`'s address —
bank `(j, i)` for `j > i` and bank `(j, i - 1)` for `j < i`. -/
def specCommit (env : XorEnv) (w i : Nat) : Nat :=
  ((List.range w).filter fun j => j ≠ i).foldl
    (fun acc j => acc ^^^ env.fetch j (if i < j then i else i - 1))
    (env.wdata i)

/-- Replay of the reader accumulation for one writer (lines 330-333): reader
`k`'s entry of the Python list `read_xors` picks up the output of this
writer's replicator reader `k`. -/
def foldReadSet (env : XorEnv) (r index : Nat) (rx : List Nat) : List Nat :=
  (List.range r).foldl (fun rx2 k => rx2.set k (rx2.getD k 0 ^^^ env.replOut index k)) rx

/-- The value wired to each logical read port's data at line 336:
`read_xors[k]` after the outer writer loop finishes, starting from the
never-driven seed signals (line 288), which evaluate to 0. -/
def readXors (env : XorEnv) (w r : Nat) : List Nat :=
  (List.range w).foldl (fun rx index => foldReadSet env r index rx) (List.replicate r 0)

/-- XOR of `f 0, ..., f (n-1)`. -/
def xorAll (f : Nat → Nat) : Nat → Nat
  | 0 => 0
  | n + 1 => xorAll f n ^^^ f n

/-- Concrete environment exhibiting the missing relay contribution: every raw
input is 0 and every network signal is 0 except the synchronous read output
of relay bank `(1, 0)` — the bank owned by writer 1 and read at writer 0's
address — which carries 5. -/
def env0 : XorEnv :=
  { wdata := fun _ => 0
    fetch := fun j i => if j = 1 ∧ i = 0 then 5 else 0
    replOut := fun _ _ => 0 }

theorem size_pred_eq_clog (n : Nat) (h : 1 ≤ n) : Nat.size (n - 1) = Nat.clog 2 n := by
  refine le_antisymm ?_ ?_
  · exact Nat.size_le.mpr
      (lt_of_lt_of_le (Nat.sub_lt h Nat.one_pos) (Nat.le_pow_clog one_lt_two n))
  · refine (Nat.le_pow_iff_clog_le one_lt_two).mp ?_
    have h2 := Nat.lt_size_self (n - 1)
    omega

theorem bits_for_natCast (m : Nat) (hm : 1 ≤ m) : bits_for (m : Int) = Nat.size m := by
  match m, hm with
  | k + 1, _ =>
    have h0 : (0 : Int) < ((k + 1 : Nat) : Int) := by exact_mod_cast Nat.succ_pos k
    rw [bits_for, if_pos h0]
    have h1 : (((k + 1 : Nat) : Int) + 1).toNat = k + 2 := by omega
    rw [h1, ceil_log2, if_neg (by omega : ¬ (k + 2 = 0))]
    congr 1

theorem addr_width_eq_clog (s : MemState) (hd : 2 ≤ s.depth) :
    bits_for (s.depth - 1) = Nat.clog 2 s.depth.toNat := by
  have hn : s.depth - 1 = ((s.depth.toNat - 1 : Nat) : Int) := by omega
  rw [hn, bits_for_natCast _ (by omega), size_pred_eq_clog _ (by omega)]

theorem addr_width_depth_one (s : MemState) (hd : s.depth = 1) :
    bits_for (s.depth - 1) = 1 := by
  rw [hd]
  norm_num [bits_for, ceil_log2, Nat.size_zero]

theorem port_creation_addr_width (s : MemState) (t : Bool) (v : Nat)
    (hv : bits_for (s.depth - 1) = v) :
    (∀ p s1, MultiReadMemory.read_port s t = .ok (p, s1) → p.addr_width = v) ∧
    (∀ p s1, MultiReadMemory.write_port s = .ok (p, s1) → p.addr_width = v) ∧
    (∀ p s1, MultiportXORMemory.read_port s t = .ok (p, s1) → p.addr_width = v) ∧
    (∀ p s1, MultiportXORMemory.write_port s = .ok (p, s1) → p.addr_width = v) := by
  refine ⟨?_, ?_, ?_, ?_⟩ <;> intro p s1 h
  · rw [MultiReadMemory.read_port] at h
    split at h
    · simp at h
    · simp only [Except.ok.injEq, Prod.mk.injEq] at h
      rcases h with ⟨hp, -⟩
      rw [← hp]
      exact hv
  · rw [MultiReadMemory.write_port] at h
    split at h
    · simp at h
    · split at h
      · simp at h
      · simp only [Except.ok.injEq, Prod.mk.injEq] at h
        rcases h with ⟨hp, -⟩
        rw [← hp]
        exact hv
  · rw [MultiportXORMemory.read_port] at h
    split at h
    · simp at h
    · simp only [Except.ok.injEq, Prod.mk.injEq] at h
      rcases h with ⟨hp, -⟩
      rw [← hp]
      exact hv
  · rw [MultiportXORMemory.write_port] at h
    split at h
    · simp at h
    · simp only [Except.ok.injEq, Prod.mk.injEq] at h
      rcases h with ⟨hp, -⟩
      rw [← hp]
      exact hv

/-- Registry of either engine constructed with the boundary depth 1. -/
def depth1Mem : MemState := MultiReadMemory.init 8 1 []

/-- C7 counterexample, at the boundary depth 1: the read-port call succeeds,
but the created access point has address width 1, not the claimed
`ceil(log2 1) = 0` — amaranth's `bits_for(0)` takes the sign-bit branch and
returns 1. -/
theorem C7_depth_one_width_counterexample :
    MultiReadMemory.read_port depth1Mem false =
      .ok (mkReadPort depth1Mem false,
        { depth1Mem with
            read_ports := depth1Mem.read_ports ++ [mkReadPort depth1Mem false] }) ∧
    (mkReadPort depth1Mem false).addr_width = 1 ∧
    (mkReadPort depth1Mem false).addr_width ≠ Nat.clog 2 (Int.toNat 1) := by
  have h : (mkReadPort depth1Mem false).addr_width = 1 :=
    addr_width_depth_one depth1Mem rfl
  refine ⟨rfl, h, ?_⟩
  rw [h, show Int.toNat 1 = 1 from rfl, Nat.clog_one_right]
  decide

/-- C7 amended: for every depth ≥ 2, every read or write access point
created by either engine has address width `ceil(log2 depth)`
(= `Nat.clog 2 depth`); the boundary depth 1 is accepted but yields address
width 1 — the sign-bit branch of amaranth's `bits_for` at 0 — not 0. -/
theorem C7_port_addr_width (s : MemState) (t : Bool) :
    (2 ≤ s.depth →
      (∀ p s1, MultiReadMemory.read_port s t = .ok (p, s1) →
          p.addr_width = Nat.clog 2 s.depth.toNat) ∧
      (∀ p s1, MultiReadMemory.write_port s = .ok (p, s1) →
          p.addr_width = Nat.clog 2 s.depth.toNat) ∧
      (∀ p s1, MultiportXORMemory.read_port s t = .ok (p, s1) →
          p.addr_width = Nat.clog 2 s.depth.toNat) ∧
      (∀ p s1, MultiportXORMemory.write_port s = .ok (p, s1) →
          p.addr_width = Nat.clog 2 s.depth.toNat)) ∧
    (s.depth = 1 →
      (∀ p s1, MultiReadMemory.read_port s t = .ok (p, s1) → p.addr_width = 1) ∧
      (∀ p s1, MultiReadMemory.write_port s = .ok (p, s1) → p.addr_width = 1) ∧
      (∀ p s1, MultiportXORMemory.read_port s t = .ok (p, s1) → p.addr_width = 1) ∧
      (∀ p s1, MultiportXORMemory.write_port s = .ok (p, s1) → p.addr_width = 1)) :=
  ⟨fun hd => port_creation_addr_width s t _ (addr_width_eq_clog s hd),
   fun hd => port_creation_addr_width s t 1 (addr_width_depth_one s hd)⟩

/-- Registry of either engine constructed with depth 4. -/
def depth4Mem : MemState := MultiReadMemory.init 8 4 []

/-- Witness for the amended C7: at depth 4 the created read port has address
width `ceil(log2 4)`, and at the boundary depth 1 it has address width 1. -/
theorem C7_port_addr_width_witness :
    (mkReadPort depth4Mem false).addr_width = Nat.clog 2 (Int.toNat 4) ∧
    (mkReadPort depth1Mem false).addr_width = 1 :=
  ⟨((C7_port_addr_width depth4Mem false).1 (by decide)).1 _ _ rfl,
   ((C7_port_addr_width depth1Mem false).2 rfl).1 _ _ rfl⟩

/-- C8 counterexample: the constructors of both engines perform no depth
validation, so construction with depth ≤ 0 succeeds (it is a total function
of the arguments) and yields a registry whose depth is not positive —
refuting both the claimed construction-time `ConfigurationError` and the
claimed invariant that every constructed memory has positive depth. -/
theorem C8_counterexample :
    (MultiReadMemory.init 8 0 []).depth = 0 ∧
    (MultiportXORMemory.init 8 (-3) []).depth = -3 ∧
    ¬ 0 < (MultiReadMemory.init 8 0 []).depth :=
  ⟨rfl, rfl, by decide⟩

/-- C8 amended: construction performs no validation at all — for every
shape, depth (including depth ≤ 0) and initial contents, both constructors
succeed and store the given descriptor verbatim in an open registry with
empty port lists. -/
theorem C8_no_construction_validation (shape : Nat) (depth : Int) (ini : List Nat) :
    (MultiReadMemory.init shape depth ini).depth = depth ∧
    (MultiReadMemory.init shape depth ini).frozen = false ∧
    (MultiReadMemory.init shape depth ini).read_ports = [] ∧
    (MultiReadMemory.init shape depth ini).write_ports = [] ∧
    (MultiportXORMemory.init shape depth ini).depth = depth ∧
    (MultiportXORMemory.init shape depth ini).frozen = false ∧
    (MultiportXORMemory.init shape depth ini).read_ports = [] ∧
    (MultiportXORMemory.init shape depth ini).write_ports = [] :=
  ⟨rfl, rfl, rfl, rfl, rfl, rfl, rfl, rfl⟩

/-- C6: on `MultiReadMemory`, while the registry is open, a write-port
request fails with `MultipleWritePorts` exactly when a write port already
exists — for every registry state, hence for every number of previously
declared read ports — and the first write-port request always succeeds. -/
theorem C6_second_write_port_capacity (s : MemState) :
    (s.frozen = false → s.write_ports ≠ [] →
      MultiReadMemory.write_port s = .error .MultipleWritePorts) ∧
    (s.frozen = false → s.write_ports = [] →
      MultiReadMemory.write_port s =
        .ok (mkWritePort s, { s with write_ports := s.write_ports ++ [mkWritePort s] })) := by
  constructor
  · intro hf hw
    rw [MultiReadMemory.write_port, if_neg (by simp [hf]), if_pos hw]
  · intro hf hw
    rw [MultiReadMemory.write_port, if_neg (by simp [hf]), if_neg (by simp [hw])]

/-- A single-writer registry that already holds its one write port. -/
def oneWriteReg : MemState := applyWritePort (MultiReadMemory.init 8 4 [])

/-- A single-writer registry with one write port and two read ports. -/
def regTwoReads : MemState := applyReadPort (applyReadPort oneWriteReg)

/-- Witness for C6: with two read ports already declared, a second
write-port request on the open registry fails with `MultipleWritePorts`,
while the first write-port request on a fresh registry succeeds. -/
theorem C6_second_write_port_capacity_witness :
    MultiReadMemory.write_port regTwoReads = .error .MultipleWritePorts ∧
    MultiReadMemory.write_port (MultiReadMemory.init 8 4 []) =
      .ok (mkWritePort (MultiReadMemory.init 8 4 []),
        { MultiReadMemory.init 8 4 [] with
            write_ports := (MultiReadMemory.init 8 4 []).write_ports
              ++ [mkWritePort (MultiReadMemory.init 8 4 [])] }) :=
  ⟨(C6_second_write_port_capacity regTwoReads).1 rfl
      (fun h => List.noConfusion h),
   (C6_second_write_port_capacity (MultiReadMemory.init 8 4 [])).2 rfl rfl⟩

/-- C5 counterexample: a declaration call made before `build()` that does
not succeed — the second write-port request on an open (never elaborated)
`MultiReadMemory` raises `MultipleWritePorts` — refuting the claim that
every declaration call made before `build()` succeeds. -/
theorem C5_counterexample :
    oneWriteReg.frozen = false ∧
    MultiReadMemory.write_port oneWriteReg = .error .MultipleWritePorts :=
  ⟨rfl, rfl⟩

/-- C5 amended: every declaration call made after elaboration fails with
`AlreadyElaborated` (the lifecycle error); before elaboration, every
read-port call on either engine, every write-port call on
`MultiportXORMemory`, and the first write-port call on `MultiReadMemory`
succeed and append the new handle at the end of the respective port list,
leaving the other list untouched (declaration order, append-only); the one
exception is a second write-port call on `MultiReadMemory`, which fails with
`MultipleWritePorts`. -/
theorem C5_lifecycle_of_port_declarations (s : MemState) (t : Bool) :
    (s.frozen = true →
      MultiReadMemory.read_port s t = .error .AlreadyElaborated) ∧
    (s.frozen = true →
      MultiReadMemory.write_port s = .error .AlreadyElaborated) ∧
    (s.frozen = true →
      MultiportXORMemory.read_port s t = .error .AlreadyElaborated) ∧
    (s.frozen = true →
      MultiportXORMemory.write_port s = .error .AlreadyElaborated) ∧
    (s.frozen = false →
      MultiReadMemory.read_port s t =
        .ok (mkReadPort s t, { s with read_ports := s.read_ports ++ [mkReadPort s t] })) ∧
    (s.frozen = false → s.write_ports = [] →
      MultiReadMemory.write_port s =
        .ok (mkWritePort s, { s with write_ports := s.write_ports ++ [mkWritePort s] })) ∧
    (s.frozen = false →
      MultiportXORMemory.read_port s t =
        .ok (mkReadPort s t, { s with read_ports := s.read_ports ++ [mkReadPort s t] })) ∧
    (s.frozen = false →
      MultiportXORMemory.write_port s =
        .ok (mkWritePort s, { s with write_ports := s.write_ports ++ [mkWritePort s] })) := by
  refine ⟨?_, ?_, ?_, ?_, ?_, ?_, ?_, ?_⟩
  · intro hf
    rw [MultiReadMemory.read_port, if_pos hf]
  · intro hf
    rw [MultiReadMemory.write_port, if_pos hf]
  · intro hf
    rw [MultiportXORMemory.read_port, if_pos hf]
  · intro hf
    rw [MultiportXORMemory.write_port, if_pos hf]
  · intro hf
    rw [MultiReadMemory.read_port, if_neg (by simp [hf])]
  · intro hf hw
    rw [MultiReadMemory.write_port, if_neg (by simp [hf]), if_neg (by simp [hw])]
  · intro hf
    rw [MultiportXORMemory.read_port, if_neg (by simp [hf])]
  · intro hf
    rw [MultiportXORMemory.write_port, if_neg (by simp [hf])]

/-- A registry frozen by elaboration. -/
def frozenReg : MemState := (MultiReadMemory.elaborate (MultiReadMemory.init 8 4 [])).finalState

/-- Witness for the amended C5: after elaboration a read-port call fails
with the lifecycle error; before elaboration a read-port call succeeds and
appends its handle. -/
theorem C5_lifecycle_of_port_declarations_witness :
    MultiReadMemory.read_port frozenReg false = .error .AlreadyElaborated ∧
    MultiReadMemory.read_port (MultiReadMemory.init 8 4 []) false =
      .ok (mkReadPort (MultiReadMemory.init 8 4 []) false,
        { MultiReadMemory.init 8 4 [] with
            read_ports := (MultiReadMemory.init 8 4 []).read_ports
              ++ [mkReadPort (MultiReadMemory.init 8 4 []) false] }) :=
  ⟨(C5_lifecycle_of_port_declarations frozenReg false).1 rfl,
   ((C5_lifecycle_of_port_declarations (MultiReadMemory.init 8 4 []) false).2.2.2.2.1) rfl⟩

theorem applyReadPort_open (s : MemState) (hf : s.frozen = false) :
    applyReadPort s = { s with read_ports := s.read_ports ++ [mkReadPort s false] } := by
  simp [applyReadPort, MultiReadMemory.read_port, hf]

theorem iterReadPorts_facts (n : Nat) :
    ∀ (s : MemState), s.frozen = false →
      (iterReadPorts s n).read_ports.length = s.read_ports.length + n ∧
      (iterReadPorts s n).write_ports = s.write_ports ∧
      (iterReadPorts s n).frozen = false ∧
      (iterReadPorts s n).shape = s.shape ∧
      (iterReadPorts s n).depth = s.depth ∧
      (iterReadPorts s n).init = s.init := by
  induction n with
  | zero => intro s hf; simp [iterReadPorts, hf]
  | succ k ih =>
    intro s hf
    rw [iterReadPorts, applyReadPort_open s hf]
    have h2 := ih { s with read_ports := s.read_ports ++ [mkReadPort s false] } hf
    simp only [List.length_append, List.length_cons, List.length_nil] at h2
    refine ⟨?_, h2.2.1, h2.2.2.1, h2.2.2.2.1, h2.2.2.2.2.1, h2.2.2.2.2.2⟩
    omega

theorem mkReadBlock_facts (sh : Nat) (d : Int) (ini : List Nat) (r : Nat) :
    (mkReadBlock sh d ini r).read_ports.length = r ∧
    (mkReadBlock sh d ini r).write_ports ≠ [] ∧
    (mkReadBlock sh d ini r).frozen = false := by
  have h1 : applyWritePort (MultiReadMemory.init sh d ini) =
      { MultiReadMemory.init sh d ini with
          write_ports := [mkWritePort (MultiReadMemory.init sh d ini)] } := by
    simp [applyWritePort, MultiReadMemory.write_port, MultiReadMemory.init]
  have h2 := iterReadPorts_facts r
    { MultiReadMemory.init sh d ini with
        write_ports := [mkWritePort (MultiReadMemory.init sh d ini)] } rfl
  rw [mkReadBlock, h1]
  refine ⟨by rw [h2.1]; simp [MultiReadMemory.init], ?_, h2.2.2.1⟩
  rw [h2.2.1]
  exact fun h => List.noConfusion h

theorem MRM_banks_length (s : MemState) (hw : s.write_ports ≠ []) :
    (MultiReadMemory.elaborate s).banks.length = s.read_ports.length := by
  simp [MultiReadMemory.elaborate, hw]

theorem sum_map_const_range (n c : Nat) : ((List.range n).map fun _ => c).sum = n * c := by
  induction n with
  | zero => simp
  | succ k ih => rw [List.range_succ]; simp [ih, Nat.succ_mul]

/-- C2: a whole `MultiportXORMemory` build with `W` declared write ports and
`R` declared read ports creates exactly `W * (W - 1 + R)` primitive memory
banks: `W - 1` relay banks plus `R` replicator banks per writer. -/
theorem C2_xor_bank_count (s : MemState) :
    (MultiportXORMemory.elaborate s).bankCount =
      s.write_ports.length * (s.write_ports.length - 1 + s.read_ports.length) := by
  have hrb : ∀ (sh : Nat) (d : Int) (ini : List Nat) (r : Nat),
      (MultiReadMemory.elaborate (mkReadBlock sh d ini r)).banks.length = r := by
    intro sh d ini r
    have h := mkReadBlock_facts sh d ini r
    rw [MRM_banks_length _ h.2.1, h.1]
  have e1 : (MultiportXORMemory.elaborate s).relayBanks.length
      = s.write_ports.length * (s.write_ports.length - 1) := by
    simp only [MultiportXORMemory.elaborate, List.length_flatMap, List.map_map,
      Function.comp_def, List.length_map, List.length_range]
    exact sum_map_const_range _ _
  have e2 : ((MultiportXORMemory.elaborate s).replicators.map
        fun p => p.2.banks.length).sum
      = s.write_ports.length * s.read_ports.length := by
    simp only [MultiportXORMemory.elaborate, List.map_map, Function.comp_def, hrb]
    exact sum_map_const_range _ _
  rw [XorBuild.bankCount, e1, e2, ← Nat.mul_add]

theorem MRM_banks_frozen (s : MemState) :
    ∀ b ∈ (MultiReadMemory.elaborate s).banks, b.frozenAtCreation = true := by
  intro b hb
  simp only [MultiReadMemory.elaborate] at hb
  split at hb
  · simp at hb
  · rcases List.mem_map.mp hb with ⟨k, -, rfl⟩
    rfl

/-- C9: both builds set the frozen flag first, so every primitive bank —
the per-reader banks of `MultiReadMemory`, the relay banks of
`MultiportXORMemory`, and the banks of each writer's replicator — is
instantiated while the registry's phase is already Frozen, and elaboration
leaves the port lists (hence the final port counts) unchanged. -/
theorem C9_frozen_before_bank_creation (s s2 : MemState) :
    (MultiReadMemory.elaborate s).finalState.frozen = true ∧
    (∀ b ∈ (MultiReadMemory.elaborate s).banks, b.frozenAtCreation = true) ∧
    (MultiReadMemory.elaborate s).finalState.read_ports = s.read_ports ∧
    (MultiReadMemory.elaborate s).finalState.write_ports = s.write_ports ∧
    (MultiportXORMemory.elaborate s2).finalState.frozen = true ∧
    (∀ rb ∈ (MultiportXORMemory.elaborate s2).relayBanks, rb.frozenAtCreation = true) ∧
    (∀ p ∈ (MultiportXORMemory.elaborate s2).replicators,
      p.1 = true ∧ ∀ b ∈ p.2.banks, b.frozenAtCreation = true) ∧
    (MultiportXORMemory.elaborate s2).finalState.read_ports = s2.read_ports ∧
    (MultiportXORMemory.elaborate s2).finalState.write_ports = s2.write_ports := by
  refine ⟨rfl, MRM_banks_frozen s, rfl, rfl, rfl, ?_, ?_, rfl, rfl⟩
  · intro rb hrb
    simp only [MultiportXORMemory.elaborate] at hrb
    rcases List.mem_flatMap.mp hrb with ⟨index, -, hin⟩
    rcases List.mem_map.mp hin with ⟨i, -, rfl⟩
    rfl
  · intro p hp
    simp only [MultiportXORMemory.elaborate] at hp
    rcases List.mem_map.mp hp with ⟨x, -, rfl⟩
    exact ⟨rfl, MRM_banks_frozen _⟩

/-- A single-writer registry with one write port and one read port. -/
def regOneRead : MemState := applyReadPort oneWriteReg

/-- Witness for C9: the one bank built for the concrete registry with one
write and one read port was created with the phase already Frozen. -/
theorem C9_frozen_before_bank_creation_witness :
    (⟨true, 0, 0, false⟩ : BankRec).frozenAtCreation = true :=
  (C9_frozen_before_bank_creation regOneRead regOneRead).2.1
    ⟨true, 0, 0, false⟩ (by decide)

theorem getD_map_range {α : Type} (f : Nat → α) (n k : Nat) (d : α) (h : k < n) :
    ((List.range n).map f).getD k d = f k := by
  rw [List.getD_eq_getElem?_getD, List.getElem?_map, List.getElem?_range h]
  rfl

theorem findBankFor_append (l1 l2 : List BankRec) (k : Nat) :
    findBankFor (l1 ++ l2) k =
      match findBankFor l1 k with
      | some j => some j
      | none => (findBankFor l2 k).map (· + l1.length) := by
  induction l1 with
  | nil =>
    cases h : findBankFor l2 k <;> simp [findBankFor, h]
  | cons b rest ih =>
    by_cases hb : b.readSrc = k
    · simp [findBankFor, hb]
    · have e1 : findBankFor (b :: (rest ++ l2)) k
          = (findBankFor (rest ++ l2) k).map (· + 1) := by
        simp [findBankFor, hb]
      have e2 : findBankFor (b :: rest) k = (findBankFor rest k).map (· + 1) := by
        simp [findBankFor, hb]
      rw [List.cons_append, e1, e2, ih]
      cases h1 : findBankFor rest k <;> cases h2 : findBankFor l2 k <;>
        simp [Nat.add_assoc]

theorem findBankFor_map_range_ge (f : Nat → BankRec) (hf : ∀ j, (f j).readSrc = j) :
    ∀ (n k : Nat), n ≤ k → findBankFor ((List.range n).map f) k = none := by
  intro n
  induction n with
  | zero => intro k _; rfl
  | succ m ih =>
    intro k hk
    rw [List.range_succ, List.map_append, findBankFor_append, ih k (by omega)]
    have hne : (f m).readSrc ≠ k := by have hm := hf m; omega
    simp [findBankFor, hne]

theorem findBankFor_map_range_lt (f : Nat → BankRec) (hf : ∀ j, (f j).readSrc = j)
    (n k : Nat) (h : k < n) : findBankFor ((List.range n).map f) k = some k := by
  induction n with
  | zero => omega
  | succ m ih =>
    rw [List.range_succ, List.map_append, findBankFor_append]
    rcases Nat.lt_or_ge k m with hk | hk
    · rw [ih hk]
    · have hkm : k = m := by omega
      subst hkm
      rw [findBankFor_map_range_ge f hf k k le_rfl]
      simp [findBankFor, hf k]

/-- C3: on `MultiReadMemory` with exactly one declared write port, positive
depth, and `R ≥ 1` declared read ports, the build creates exactly `R`
primitive banks, every bank's write access point is driven by the single
logical writer (port 0), and after a cycle that writes value `v` at address
`a`, every logical read port that samples address `a` on the following cycle
— with no interfering enabled write to `a` in that cycle — outputs `v`. -/
theorem C3_single_writer_replication (s : MemState)
    (hw : s.write_ports.length = 1) (hd : 0 < s.depth)
    (hr : 1 ≤ s.read_ports.length) :
    (MultiReadMemory.elaborate s).banks.length = s.read_ports.length ∧
    (∀ b ∈ (MultiReadMemory.elaborate s).banks, b.writeSrc = 0) ∧
    (∀ (st : CircState) (a v k : Nat) (in1 in2 : CircInputs),
      in1.writes = [⟨true, a, v⟩] →
      k < s.read_ports.length →
      in2.reads.getD k defaultR = ⟨true, a⟩ →
      ((in2.writes.getD 0 defaultW).en = false ∨ (in2.writes.getD 0 defaultW).addr ≠ a) →
      portData (MultiReadMemory.elaborate s).banks
        (circStep (MultiReadMemory.elaborate s).banks in2
          (circStep (MultiReadMemory.elaborate s).banks in1 st)) k = v) := by
  have hw0 : s.write_ports ≠ [] := by
    intro h
    rw [h] at hw
    simp at hw
  have hbanks : (MultiReadMemory.elaborate s).banks =
      (List.range s.read_ports.length).map fun j =>
        { frozenAtCreation := true, writeSrc := 0, readSrc := j,
          transparent := (s.read_ports.getD j (mkReadPort s false)).transparentFor } := by
    simp [MultiReadMemory.elaborate, hw0]
  refine ⟨by rw [hbanks]; simp, ?_, ?_⟩
  · rw [hbanks]
    intro b hb
    rcases List.mem_map.mp hb with ⟨j, -, rfl⟩
    rfl
  · intro st a v k in1 in2 h1 hk h2 h3
    rw [hbanks]
    set f : Nat → BankRec := fun j =>
      { frozenAtCreation := true, writeSrc := 0, readSrc := j,
        transparent := (s.read_ports.getD j (mkReadPort s false)).transparentFor } with hf
    set bl : List BankRec := (List.range s.read_ports.length).map f with hbl
    have hblen : bl.length = s.read_ports.length := by
      rw [hbl]
      simp
    have hfind : findBankFor bl k = some k :=
      findBankFor_map_range_lt f (fun j => rfl) _ k hk
    have hbankk : bl.getD k default = f k := by
      rw [hbl]
      exact getD_map_range f _ k default hk
    have hmem1 : (circStep bl in1 st).mems.getD k zeroMem
        = stepMem (f k) in1 (st.mems.getD k zeroMem) := by
      simp only [circStep, hblen]
      rw [getD_map_range _ _ _ _ hk, hbankk]
    have hout2 : (circStep bl in2 (circStep bl in1 st)).outs.getD k 0
        = stepOut (f k) in2 ((circStep bl in1 st).mems.getD k zeroMem)
            ((circStep bl in1 st).outs.getD k 0) := by
      simp only [circStep, hblen]
      rw [getD_map_range _ _ _ _ hk, hbankk]
    simp only [portData, hfind, hout2, hmem1]
    simp only [List.getD_eq_getElem?_getD] at h2 h3
    rcases h3 with h3 | h3
    · simp [stepOut, stepMem, hf, h1, h2, h3]
    · simp [stepOut, stepMem, hf, h1, h2, h3]

/-- Witness for C3, spec Scenario A: one write port and two read ports on a
depth-4 memory; after writing 17 at address 2, both read ports sampling
address 2 the following cycle output 17. -/
theorem C3_single_writer_replication_witness :
    portData (MultiReadMemory.elaborate regTwoReads).banks
      (circStep (MultiReadMemory.elaborate regTwoReads).banks ⟨[], [⟨true, 2⟩, ⟨true, 2⟩]⟩
        (circStep (MultiReadMemory.elaborate regTwoReads).banks ⟨[⟨true, 2, 17⟩], []⟩
          ⟨[zeroMem, zeroMem], [0, 0]⟩)) 0 = 17 ∧
    portData (MultiReadMemory.elaborate regTwoReads).banks
      (circStep (MultiReadMemory.elaborate regTwoReads).banks ⟨[], [⟨true, 2⟩, ⟨true, 2⟩]⟩
        (circStep (MultiReadMemory.elaborate regTwoReads).banks ⟨[⟨true, 2, 17⟩], []⟩
          ⟨[zeroMem, zeroMem], [0, 0]⟩)) 1 = 17 :=
  ⟨(C3_single_writer_replication regTwoReads rfl (by decide) (by decide)).2.2
      ⟨[zeroMem, zeroMem], [0, 0]⟩ 2 17 0 ⟨[⟨true, 2, 17⟩], []⟩ ⟨[], [⟨true, 2⟩, ⟨true, 2⟩]⟩
      rfl (by decide) rfl (Or.inl rfl),
   (C3_single_writer_replication regTwoReads rfl (by decide) (by decide)).2.2
      ⟨[zeroMem, zeroMem], [0, 0]⟩ 2 17 1 ⟨[⟨true, 2, 17⟩], []⟩ ⟨[], [⟨true, 2⟩, ⟨true, 2⟩]⟩
      rfl (by decide) rfl (Or.inl rfl)⟩

/-- C10: a `MultiReadMemory` built with zero declared write ports creates no
primitive banks at all, however many read ports were declared; every logical
read port's data output is then undriven and reads as the constant 0 in
every state, and the build result does not depend on the declared initial
values, so they are never observable through any read port. -/
theorem C10_no_write_port_build (s : MemState) (h : s.write_ports = []) :
    (MultiReadMemory.elaborate s).banks = [] ∧
    (∀ (st : CircState) (k : Nat),
      portData (MultiReadMemory.elaborate s).banks st k = 0) ∧
    (∀ (ini : List Nat),
      (MultiReadMemory.elaborate { s with init := ini }).banks = []) := by
  have hb : (MultiReadMemory.elaborate s).banks = [] := by
    simp [MultiReadMemory.elaborate, h]
  refine ⟨hb, ?_, ?_⟩
  · intro st k
    rw [hb]
    rfl
  · intro ini
    simp [MultiReadMemory.elaborate, h]

/-- A registry with two read ports, no write port, and nonzero initial
values. -/
def readOnlyReg : MemState :=
  applyReadPort (applyReadPort (MultiReadMemory.init 8 4 [7, 7, 7, 7]))

/-- Witness for C10: the concrete write-port-less registry with two read
ports and nonzero initial values builds zero banks, and read port 0 outputs
0 even in a state whose banks would hold 7 everywhere. -/
theorem C10_no_write_port_build_witness :
    (MultiReadMemory.elaborate readOnlyReg).banks = [] ∧
    portData (MultiReadMemory.elaborate readOnlyReg).banks ⟨[fun _ => 7], [7]⟩ 0 = 0 :=
  ⟨(C10_no_write_port_build readOnlyReg rfl).1,
   (C10_no_write_port_build readOnlyReg rfl).2.1 ⟨[fun _ => 7], [7]⟩ 0⟩

/-- C1, evaluated at the failing input `W = 2` in environment `env0`:
writer 0's value committed to its relay bank and to its replicator is its
raw input alone (0), with no fetched relay value XORed in, while the
spec-mandated combined value — raw input XORed with the value fetched from
writer 1's relay bank read at writer 0's address — is 5.  The commit wired
at lines 314/328 captures `write_xors[0]` before any other writer's loop
iteration has contributed a fetched value to it, so all contributions from
relay banks built later in construction order are lost. -/
theorem C1_writer0_commit_omits_fetched_values :
    ((writeCommits env0 2).getD 0 ([], 0)).1 = [0] ∧
    ((writeCommits env0 2).getD 0 ([], 0)).2 = 0 ∧
    specCommit env0 2 0 = 5 ∧
    ((writeCommits env0 2).getD 0 ([], 0)).2 ≠ specCommit env0 2 0 :=
  ⟨rfl, rfl, rfl, by decide⟩

theorem foldl_set_length (h : List Nat → Nat → Nat) (l : List Nat) :
    ∀ rx : List Nat,
      (l.foldl (fun rx2 k => rx2.set k (h rx2 k)) rx).length = rx.length := by
  induction l with
  | nil => intro rx; rfl
  | cons a t ih =>
    intro rx
    rw [List.foldl_cons, ih]
    exact List.length_set rx a (h rx a)

theorem foldReadSet_getD (env : XorEnv) (index : Nat) :
    ∀ (m : Nat) (rx : List Nat) (k : Nat), k < rx.length →
      ((List.range m).foldl
          (fun rx2 j => rx2.set j (rx2.getD j 0 ^^^ env.replOut index j)) rx).getD k 0
        = if k < m then rx.getD k 0 ^^^ env.replOut index k else rx.getD k 0 := by
  intro m
  induction m with
  | zero => intro rx k hk; simp
  | succ n ih =>
    intro rx k hk
    rw [List.range_succ, List.foldl_append, List.foldl_cons, List.foldl_nil]
    have hlen : ((List.range n).foldl
        (fun rx2 j => rx2.set j (rx2.getD j 0 ^^^ env.replOut index j)) rx).length
        = rx.length :=
      foldl_set_length (fun rx2 j => rx2.getD j 0 ^^^ env.replOut index j) _ rx
    by_cases hkn : k = n
    · subst hkn
      rw [List.getD_eq_getElem?_getD, List.getElem?_set_self (by omega), Option.getD_some]
      rw [ih rx k hk, if_neg (by omega), if_pos (by omega)]
    · rw [List.getD_eq_getElem?_getD, List.getElem?_set_ne (by omega),
        ← List.getD_eq_getElem?_getD, ih rx k hk]
      by_cases hk2 : k < n
      · rw [if_pos hk2, if_pos (by omega)]
      · rw [if_neg hk2, if_neg (by omega)]

theorem readXors_length (env : XorEnv) (w r : Nat) : (readXors env w r).length = r := by
  rw [readXors]
  induction w with
  | zero => simp
  | succ n ih =>
    rw [List.range_succ, List.foldl_append, List.foldl_cons, List.foldl_nil, foldReadSet]
    rw [foldl_set_length (fun rx2 j => rx2.getD j 0 ^^^ env.replOut n j) _ _]
    exact ih

/-- C4: for every environment, every writer count `W` and reader count `R`,
the value wired to logical read port `k`'s data output (line 336) is the XOR
over all writers `i < W` of reader `k`'s output from writer `i`'s
replicator — the accumulation at line 331 runs over every writer before the
output is connected after the loop. -/
theorem C4_read_reconstruction (env : XorEnv) (w r k : Nat) (hk : k < r) :
    (readXors env w r).getD k 0 = xorAll (fun i => env.replOut i k) w := by
  induction w with
  | zero =>
    rw [readXors, List.range_zero, List.foldl_nil, xorAll]
    simp [List.getD_eq_getElem?_getD, List.getElem?_replicate, hk]
  | succ n ih =>
    have hstep : readXors env (n + 1) r = foldReadSet env r n (readXors env n r) := by
      rw [readXors, readXors, List.range_succ, List.foldl_append, List.foldl_cons,
        List.foldl_nil]
    rw [hstep, foldReadSet,
      foldReadSet_getD env n r (readXors env n r) k (by rw [readXors_length]; exact hk),
      if_pos hk, ih, xorAll]

/-- Environment with distinct replicator outputs for the C4 witness. -/
def env1 : XorEnv :=
  { wdata := fun _ => 0
    fetch := fun _ _ => 0
    replOut := fun i _ => if i = 0 then 3 else 5 }

/-- Witness for C4 at `W = 2`, `R = 1`: read port 0's wired value equals the
XOR of the two replicator outputs, here `3 xor 5 = 6`. -/
theorem C4_read_reconstruction_witness :
    (readXors env1 2 1).getD 0 0 = xorAll (fun i => env1.replOut i 0) 2 ∧
    xorAll (fun i => env1.replOut i 0) 2 = 6 :=
  ⟨C4_read_reconstruction env1 2 1 0 (by decide), by decide⟩
